import Mathlib

/-!
Verification of the Homeofficinator leave-reconciliation core
(homeofficinator.py) against its natural-language specification.

Modelling conventions:
- Calendar dates are integers counting days; every datetime handled by the
  tool is midnight-aligned (date_to_datetime), so day granularity is exact.
- weekday d = d % 7, with 0 = Monday, matching dateutil rrule codes MO..FR.
- DataError mirrors the ValidationError kind of the spec taxonomy and
  HttpError mirrors the NetworkError kind.
- requests semantics: Response.raise_for_status raises exactly for status
  codes in [400, 600); decorate_http wraps any such exception in HttpError.
-/

/-- Mirrors class DataError (homeofficinator.py): the error raised by the
validation helpers; the spec calls this kind ValidationError. -/
structure DataError where
  msg : String
deriving DecidableEq

/-- Mirrors MAX_DAYS_BETWEEN_DATES = 100. -/
def MAX_DAYS_BETWEEN_DATES : Int := 100

/-- Mirrors Params._check_dates: raises DataError when
date_from > date_to or date_to - date_from > timedelta(days=100).
Both datetimes are midnight-aligned, so the timedelta comparison is a
whole-day comparison. -/
def check_dates (date_from date_to : Int) : Except DataError Unit :=
  if date_from > date_to ∨ date_to - date_from > MAX_DAYS_BETWEEN_DATES then
    Except.error (DataError.mk "Dates are incorrect (cannot be more than 100 days apart)")
  else
    Except.ok ()

/-- Character class of the regex [0-9a-g-] in check_auth_token. -/
def isTokenChar (c : Char) : Bool :=
  ('0' ≤ c && c ≤ '9') || ('a' ≤ c && c ≤ 'g') || c == '-'

/-- Python re.match with pattern [0-9a-g-]+ : the match is anchored at the
start only, so it succeeds exactly when the string is non-empty and its
first character is in the class. -/
def reMatchToken (s : String) : Bool :=
  match s.data with
  | [] => false
  | c :: _ => isTokenChar c

/-- Mirrors check_auth_token: empty token raises DataError, then the token
is checked with re.match(r"[0-9a-g-]+", auth_token). -/
def check_auth_token (auth_token : String) : Except DataError String :=
  if auth_token = "" then
    Except.error (DataError.mk "Please provide authToken")
  else if reMatchToken auth_token then
    Except.ok auth_token
  else
    Except.error (DataError.mk "AuthToken format is not ok")

/-- The spec reads the credential rule as the whole string being made of
token characters (a full match of the token-character pattern). This
definition follows the spec words, for comparison with check_auth_token,
which uses Python re.match (prefix-anchored) semantics. -/
def specTokenPattern (s : String) : Bool :=
  !s.data.isEmpty && s.data.all isTokenChar

/-- Mirrors check_days: the source keeps the rows whose IntVar is set and
projects the rrule weekday code; empty result raises DataError. A row is
(label, rrule weekday code, checkbox value). -/
def check_days (raw_days : List (String × Int × Bool)) : Except DataError (List Int) :=
  let res := (raw_days.filter (fun r => r.2.2)).map (fun r => r.2.1)
  if res.isEmpty then Except.error (DataError.mk "Select at least one day")
  else Except.ok res

/-- Day-of-week of a day number; 0 = Monday under the epoch convention.
Mirrors Python date.weekday() and the rrule weekday codes MO=0..FR=4. -/
def weekday (d : Int) : Int := d % 7

/-- Mirrors the candidate-date generation in MainWindow.order_home_office:
rrule.rrule(DAILY, byweekday=params.days, dtstart=params.date_from)
  .between(params.date_from, params.date_to, inc=True),
whose occurrences are exactly the days d with date_from ≤ d ≤ date_to whose
weekday is among the selected rrule weekday codes, in ascending order. -/
def candidateDates (date_from date_to : Int) (wdays : List Int) : List Int :=
  ((List.range (date_to - date_from + 1).toNat).map
      (fun i : Nat => date_from + (i : Int))).filter
    (fun d => decide (weekday d ∈ wdays))

/-- One element of the streamed outcome log of order_home_office:
trying d is the ">>> Trying for ..." line for day d, alreadyTaken the
"[x] Already taken" line, success the "[+] SUCCESS" line and failure st
the "[-] FAILURE : st" line. -/
inductive LogEntry where
  | trying (day : Int)
  | alreadyTaken
  | success
  | failure (status : Nat)
deriving DecidableEq

/-- Observable outcome of one consumption of the order_home_office
generator: the log lines yielded, the days for which a creation request
was POSTed, and the status of the HttpError that aborted the generator,
if any. -/
structure RunResult where
  logs : List LogEntry
  posts : List Int
  err : Option Nat
deriving DecidableEq

/-- Mirrors the per-day loop of MainWindow.order_home_office over an
explicit list of candidate days. The transport function gives the HTTP
status the server returns for the creation request of a given day.
For each day the generator yields the trying line; a day in leaves yields
"[x] Already taken" with no request; otherwise _http_request_leave POSTs
and, through decorate_http, Response.raise_for_status raises for any
status in [400, 600), which decorate_http rewraps as HttpError, aborting
the generator; for the remaining statuses the loop yields SUCCESS exactly
for 200 and FAILURE with the status otherwise, and continues. -/
def processDays (leaves : List Int) (transport : Int → Nat) : List Int → RunResult
  | [] => ⟨[], [], none⟩
  | day :: rest =>
    if day ∈ leaves then
      ⟨LogEntry.trying day :: LogEntry.alreadyTaken ::
         (processDays leaves transport rest).logs,
       (processDays leaves transport rest).posts,
       (processDays leaves transport rest).err⟩
    else if 400 ≤ transport day ∧ transport day < 600 then
      ⟨[LogEntry.trying day], [day], some (transport day)⟩
    else
      ⟨LogEntry.trying day ::
         (if transport day = 200 then LogEntry.success
          else LogEntry.failure (transport day)) ::
         (processDays leaves transport rest).logs,
       day :: (processDays leaves transport rest).posts,
       (processDays leaves transport rest).err⟩

/-- Mirrors MainWindow.order_home_office, with the existing-leave set and
the HTTP transport abstracted: the candidate days are generated from the
validated parameters and processed sequentially. -/
def order_home_office (leaves : List Int) (transport : Int → Nat)
    (date_from date_to : Int) (wdays : List Int) : RunResult :=
  processDays leaves transport (candidateDates date_from date_to wdays)

example : candidateDates 0 4 [0, 2] = [0, 2] := by decide
example :
    order_home_office [0] (fun _ => 200) 0 4 [0, 2] =
      ⟨[LogEntry.trying 0, LogEntry.alreadyTaken,
        LogEntry.trying 2, LogEntry.success], [2], none⟩ := by
  decide
example :
    order_home_office [] (fun _ => 403) 0 1 [0, 1] =
      ⟨[LogEntry.trying 0], [0], some 403⟩ := by decide
example :
    order_home_office [] (fun _ => 201) 0 0 [0] =
      ⟨[LogEntry.trying 0, LogEntry.failure 201], [0], none⟩ := by decide

/-- A JSON value as far as the id field of the users/me response body is
concerned: an integer or something non-numeric such as a string. -/
inductive JsonVal where
  | int (n : Int)
  | str (s : String)
deriving DecidableEq

/-- Errors that can escape Params.owner_id: HttpError is raised by
decorate_http around _http_get_owner_id (the NetworkError kind of the
spec), keyError models the Python KeyError raised by
ans.json()["data"]["id"] when the field is missing. -/
inductive OwnerLookupError where
  | httpError (status : Nat)
  | keyError
deriving DecidableEq

/-- Mirrors Params.owner_id together with _http_get_owner_id: the GET on
/api/v3/users/me goes through decorate_http, whose raise_for_status call
raises (rewrapped as HttpError) exactly for statuses in [400, 600); then
the body lookup ans.json()["data"]["id"] raises KeyError when the field is
absent, and otherwise returns the value as-is, with no numeric check. The
response is abstracted as its status and the optional id field value. -/
def owner_id (status : Nat) (idField : Option JsonVal) :
    Except OwnerLookupError JsonVal :=
  if 400 ≤ status ∧ status < 600 then
    Except.error (OwnerLookupError.httpError status)
  else
    match idField with
    | none => Except.error OwnerLookupError.keyError
    | some v => Except.ok v

/-- Parsed calendar date, as produced by datetime.strptime(tok, "%Y%m%d"). -/
structure YMD where
  y : Nat
  m : Nat
  d : Nat
deriving DecidableEq

/-- Gregorian leap-year rule used by Python datetime validity checks. -/
def leapYear (y : Nat) : Bool :=
  (y % 4 == 0 && y % 100 != 0) || y % 400 == 0

/-- Number of days of month m in year y, per Python datetime. -/
def daysInMonth (y m : Nat) : Nat :=
  if m = 2 then (if leapYear y then 29 else 28)
  else if m = 4 ∨ m = 6 ∨ m = 9 ∨ m = 11 then 30
  else 31

/-- Numeric value of a decimal digit character. -/
def digitVal (c : Char) : Nat := c.toNat - '0'.toNat

/-- Models CPython datetime.strptime(tok, "%Y%m%d") on 8-character tokens
(the shape the leave-record names carry): the directives consume 4, 2 and
2 digits, and year/month/day validity is checked; any non-digit character
or out-of-range component raises ValueError, modelled as none. Tokens of
another length are also rejected. -/
def strptimeYmd (tok : List Char) : Option YMD :=
  match tok with
  | [a, b, c, d, e, f, g, h] =>
    if (tok.all Char.isDigit) then
      let y := ((digitVal a * 10 + digitVal b) * 10 + digitVal c) * 10 + digitVal d
      let m := digitVal e * 10 + digitVal f
      let day := digitVal g * 10 + digitVal h
      if 1 ≤ y ∧ 1 ≤ m ∧ m ≤ 12 ∧ 1 ≤ day ∧ day ≤ daysInMonth y m then
        some ⟨y, m, day⟩
      else none
    else none
  | _ => none

/-- Full split of a character list on the - character; mirrors Python
str.split with separator "-" and no maxsplit. -/
def splitDash : List Char → List (List Char)
  | [] => [[]]
  | c :: rest =>
    if c = '-' then [] :: splitDash rest
    else
      match splitDash rest with
      | [] => [[c]]
      | g :: gs => (c :: g) :: gs

/-- Rejoin with the - separator; mirrors "-".join. -/
def joinDash : List (List Char) → List Char
  | [] => []
  | [g] => g
  | g :: gs => g ++ '-' :: joinDash gs

/-- Mirrors Python name.split("-", 2): at most two splits are made, the
remainder after the second separator is kept whole. -/
def pySplit2 (s : List Char) : List (List Char) :=
  match splitDash s with
  | a :: b :: c :: rest => [a, b, joinDash (c :: rest)]
  | xs => xs

/-- Errors that can escape the parsing in MainWindow._get_all_leaves:
indexError models the Python IndexError when the name has no second
"-"-delimited segment, valueError the ValueError raised by strptime on an
unparseable token. Both are uncaught hard errors for the run. -/
inductive LeaveParseError where
  | indexError
  | valueError
deriving DecidableEq

/-- Mirrors the per-record parsing in MainWindow._get_all_leaves:
datetime.strptime(leave["name"].split("-", 2)[1], "%Y%m%d"). -/
def parse_leave_name (name : String) : Except LeaveParseError YMD :=
  match (pySplit2 name.data)[1]? with
  | none => Except.error LeaveParseError.indexError
  | some tok =>
    match strptimeYmd tok with
    | none => Except.error LeaveParseError.valueError
    | some ymd => Except.ok ymd

/-- Mirrors the set comprehension of MainWindow._get_all_leaves over the
name fields of the returned records: every record is parsed, and the first
record whose name fails to parse raises, aborting the whole run rather
than being skipped. -/
def get_all_leaves (names : List String) : Except LeaveParseError (List YMD) :=
  names.mapM parse_leave_name

example : parse_leave_name "LEAVE-20240115-abc" = Except.ok ⟨2024, 1, 15⟩ := by rfl
example : parse_leave_name "LEAVE-badtoken-abc" = Except.error LeaveParseError.valueError := by rfl
example : parse_leave_name "LEAVEnodash" = Except.error LeaveParseError.indexError := by rfl
example : pySplit2 "a-b-c-d".data = ["a".data, "b".data, "c-d".data] := by rfl

/-- The raw user input collected by the GUI widgets before validation. -/
structure RawInput where
  auth_token : String
  raw_days : List (String × Int × Bool)
  date_from : Int
  date_to : Int

/-- The validated, immutable Params value (class Params). -/
structure Params where
  auth_token : String
  days : List Int
  date_from : Int
  date_to : Int

/-- Mirrors the pydantic construction Params(...): the field validators
check_auth_token and check_days run, then the after-model validator
_check_dates; the first DataError aborts construction. -/
def mkParams (r : RawInput) : Except DataError Params := do
  let tok ← check_auth_token r.auth_token
  let ds ← check_days r.raw_days
  let _ ← check_dates r.date_from r.date_to
  Except.ok ⟨tok, ds, r.date_from, r.date_to⟩

/-- Externally observable events of one MainWindow.validate call: a log
line displayed in the text widget, a call to Params.close (which closes
the requests session), or an error dialog (showerror) of either kind. -/
inductive VEvent where
  | displayed (e : LogEntry)
  | closed
  | dialogData
  | dialogExec
deriving DecidableEq

/-- Mirrors MainWindow.validate. p starts as None; Params(...) may raise
DataError, in which case the except DataError arm shows a dialog and the
finally block skips close because p is still None. When construction
succeeds, the for loop drains the order_home_office generator, displaying
each yielded line; when the generator finishes without raising, the inline
p.close() after the loop runs, and then the finally block calls p.close()
again; when the generator raises HttpError, the inline close is skipped,
the except ExecutionError arm shows a dialog, and the finally block calls
p.close() once. -/
def validateEvents (r : RawInput) (leaves : List Int) (transport : Int → Nat) :
    List VEvent :=
  match mkParams r with
  | Except.error _ => [VEvent.dialogData]
  | Except.ok p =>
    match (order_home_office leaves transport p.date_from p.date_to p.days).err with
    | none =>
      (order_home_office leaves transport p.date_from p.date_to p.days).logs.map
        VEvent.displayed ++ [VEvent.closed, VEvent.closed]
    | some _ =>
      (order_home_office leaves transport p.date_from p.date_to p.days).logs.map
        VEvent.displayed ++ [VEvent.dialogExec, VEvent.closed]

/-- Number of Params.close calls in a validate trace. -/
def closeCount (evs : List VEvent) : Nat :=
  (evs.filter (fun e => decide (e = VEvent.closed))).length

/-- A raw input that passes all validation, used in concrete runs. -/
def okInput : RawInput :=
  ⟨"abc123", [("Monday", 0, true), ("Tuesday", 1, false)], 0, 0⟩

example : (mkParams okInput).isOk = true := by rfl
example :
    closeCount (validateEvents okInput [] (fun _ => 200)) = 2 := by rfl
example :
    closeCount (validateEvents okInput [] (fun _ => 500)) = 1 := by rfl
example :
    closeCount (validateEvents ⟨"", [("Monday", 0, true)], 0, 0⟩ [] (fun _ => 200)) = 0 := by
  rfl

example : check_dates 0 100 = Except.ok () := by rfl
example : check_dates 0 101 =
    Except.error (DataError.mk "Dates are incorrect (cannot be more than 100 days apart)") := by
  rfl
example : (check_auth_token "0Z").isOk = true := by decide
example : specTokenPattern "0Z" = false := by decide
example : (check_auth_token "").isOk = false := by decide
example : ("LEAVE-20240115-abc".data)[1]? = some 'E' := by decide

/-- A transport whose server answers every creation request with the same
HTTP status; used for concrete runs. -/
def alwaysStatus (st : Nat) : Int → Nat := fun _ => st

/-! ## Helper lemmas -/

/-- A day belonging to the existing-leave set is never POSTed, on any run,
aborted or not. -/
theorem processDays_posts_disjoint (leaves : List Int) (transport : Int → Nat)
    (d : Int) (hd : d ∈ leaves) :
    ∀ days : List Int, d ∉ (processDays leaves transport days).posts := by
  intro days
  induction days with
  | nil => simp [processDays]
  | cons day rest ih =>
    by_cases hday : day ∈ leaves
    · simpa [processDays, hday] using ih
    · by_cases hst : 400 ≤ transport day ∧ transport day < 600
      · simp only [processDays, if_neg hday, if_pos hst]
        intro hmem
        rw [List.mem_singleton] at hmem
        subst hmem
        exact hday hd
      · simp only [processDays, if_neg hday, if_neg hst]
        intro hmem
        rcases List.mem_cons.mp hmem with h | h
        · subst h; exact hday hd
        · exact ih h

/-- Structure of the log around any trying line: the entry following the
trying line of day d is determined by membership of d in the leave set and
by the status the transport returns for d; a 4xx/5xx status leaves the
trying line as the last line of the whole log (the generator aborted). -/
theorem processDays_group (leaves : List Int) (transport : Int → Nat) (d : Int) :
    ∀ (days : List Int) (pre rest' : List LogEntry),
      (processDays leaves transport days).logs = pre ++ LogEntry.trying d :: rest' →
      (d ∈ leaves → ∃ r2, rest' = LogEntry.alreadyTaken :: r2) ∧
      (d ∉ leaves → (400 ≤ transport d ∧ transport d < 600) → rest' = []) ∧
      (d ∉ leaves → ¬(400 ≤ transport d ∧ transport d < 600) → transport d = 200 →
        ∃ r2, rest' = LogEntry.success :: r2) ∧
      (d ∉ leaves → ¬(400 ≤ transport d ∧ transport d < 600) → transport d ≠ 200 →
        ∃ r2, rest' = LogEntry.failure (transport d) :: r2) := by
  intro days
  induction days with
  | nil =>
    intro pre rest' h
    simp [processDays] at h
  | cons day rest ih =>
    intro pre rest' h
    by_cases hday : day ∈ leaves
    · simp only [processDays, if_pos hday] at h
      cases pre with
      | nil =>
        rw [List.nil_append] at h
        injection h with h1 h2
        injection h1 with hdd
        subst hdd
        refine ⟨fun _ => ⟨_, h2.symm⟩, fun hn => absurd hday hn,
          fun hn _ => absurd hday hn, fun hn _ _ => absurd hday hn⟩
      | cons q pre2 =>
        rw [List.cons_append] at h
        injection h with h1 h2
        cases pre2 with
        | nil =>
          rw [List.nil_append] at h2
          injection h2 with h3 h4
          cases h3
        | cons q2 pre3 =>
          rw [List.cons_append] at h2
          injection h2 with h3 h4
          exact ih pre3 rest' h4
    · by_cases hst : 400 ≤ transport day ∧ transport day < 600
      · simp only [processDays, if_neg hday, if_pos hst] at h
        cases pre with
        | nil =>
          rw [List.nil_append] at h
          injection h with h1 h2
          injection h1 with hdd
          subst hdd
          refine ⟨fun hmem => absurd hmem hday, fun _ _ => h2.symm,
            fun _ hn _ => absurd hst hn, fun _ hn _ => absurd hst hn⟩
        | cons q pre2 =>
          rw [List.cons_append] at h
          injection h with h1 h2
          simp at h2
      · simp only [processDays, if_neg hday, if_neg hst] at h
        cases pre with
        | nil =>
          rw [List.nil_append] at h
          injection h with h1 h2
          injection h1 with hdd
          subst hdd
          refine ⟨fun hmem => absurd hmem hday, fun _ h4 => absurd h4 hst,
            fun _ _ h200 => ?_, fun _ _ h200 => ?_⟩
          · rw [if_pos h200] at h2
            exact ⟨_, h2.symm⟩
          · rw [if_neg h200] at h2
            exact ⟨_, h2.symm⟩
        | cons q pre2 =>
          rw [List.cons_append] at h
          injection h with h1 h2
          cases pre2 with
          | nil =>
            rw [List.nil_append] at h2
            injection h2 with h3 h4
            split at h3 <;> cases h3
          | cons q2 pre3 =>
            rw [List.cons_append] at h2
            injection h2 with h3 h4
            exact ih pre3 rest' h4

/-- The filter of a log over close events ignores displayed lines. -/
theorem filter_closed_map_displayed (l : List LogEntry) :
    (l.map VEvent.displayed).filter (fun e => decide (e = VEvent.closed)) = [] := by
  induction l with
  | nil => rfl
  | cons a l ih => simp [ih]

/-- The ok constructor of Except registers as accepted. -/
theorem isOk_ok {ε α : Type} (a : α) : (Except.ok a : Except ε α).isOk = true := rfl

/-- The error constructor of Except registers as rejected. -/
theorem isOk_error {ε α : Type} (e : ε) : (Except.error e : Except ε α).isOk = false := rfl

/-- The acceptance condition of check_auth_token is exactly the Python
re.match test, preceded by the emptiness test it subsumes. -/
theorem check_auth_token_isOk (s : String) :
    (check_auth_token s).isOk = reMatchToken s := by
  unfold check_auth_token
  split
  next h => subst h; rfl
  next =>
    split
    next h2 => rw [isOk_ok, h2]
    next h2 =>
      simp only [Bool.not_eq_true] at h2
      rw [isOk_error, h2]

/-! ## Claims -/

/-- C3: for every valid (date_from, date_to, weekdays), the candidate date
sequence is strictly ascending and a date is in it exactly when it lies in
the inclusive range and its weekday is selected. -/
theorem candidate_dates_spec (f t : Int) (wdays : List Int) :
    List.Pairwise (fun a b => a < b) (candidateDates f t wdays) ∧
    ∀ d : Int, d ∈ candidateDates f t wdays ↔
      (f ≤ d ∧ d ≤ t ∧ weekday d ∈ wdays) := by
  constructor
  · unfold candidateDates
    refine List.Pairwise.filter _ ?_
    refine List.Pairwise.map _ ?_ (List.pairwise_lt_range _)
    intro a b hab
    omega
  · intro d
    unfold candidateDates weekday
    simp only [List.mem_filter, List.mem_map, List.mem_range, decide_eq_true_eq]
    constructor
    · rintro ⟨⟨i, hi, rfl⟩, hw⟩
      exact ⟨by omega, by omega, hw⟩
    · rintro ⟨h1, h2, hw⟩
      exact ⟨⟨(d - f).toNat, by omega, by omega⟩, hw⟩

/-- C5: date validation accepts exactly the ranges with
date_from ≤ date_to and a span of at most 100 days; every exactly-100-day
span is accepted. -/
theorem check_dates_range_rule (f t : Int) :
    ((check_dates f t).isOk = true ↔ (f ≤ t ∧ t - f ≤ 100)) ∧
    (check_dates f (f + 100)).isOk = true := by
  constructor
  · unfold check_dates MAX_DAYS_BETWEEN_DATES
    split
    next h =>
      rw [isOk_error]
      constructor
      · intro hh; cases hh
      · intro hh; exact absurd h (by omega)
    next h =>
      rw [isOk_ok]
      constructor
      · intro _; omega
      · intro _; rfl
  · unfold check_dates MAX_DAYS_BETWEEN_DATES
    split
    next h => exact absurd h (by omega)
    next h => rfl

/-- C9: weekday-selection validation accepts exactly the inputs in which
at least one weekday row is checked, and raises DataError otherwise. -/
theorem check_days_nonempty_rule (raw : List (String × Int × Bool)) :
    (check_days raw).isOk = true ↔ raw.any (fun r => r.2.2) = true := by
  simp only [check_days]
  split
  next h =>
    rw [isOk_error]
    simp only [List.isEmpty_iff, List.map_eq_nil_iff, List.filter_eq_nil_iff] at h
    simp only [Bool.false_eq_true, false_iff, List.any_eq_true, not_exists]
    rintro r ⟨hmem, hsel⟩
    exact h r hmem hsel
  next h =>
    rw [isOk_ok]
    simp only [List.isEmpty_iff, List.map_eq_nil_iff] at h
    simp only [true_iff, List.any_eq_true]
    rcases List.exists_mem_of_ne_nil _ h with ⟨r, hr⟩
    rw [List.mem_filter] at hr
    exact ⟨r, hr.1, hr.2⟩

/-- C8 counterexample: the credential "0Z" is accepted by
check_auth_token although it is not made of token characters, because
re.match only anchors the pattern at the start of the string. -/
theorem auth_token_prefix_only_counterexample :
    (check_auth_token "0Z").isOk = true ∧ specTokenPattern "0Z" = false := by
  exact ⟨by decide, by decide⟩

/-- C8 amended: credential validation raises DataError for the empty
string and for any string whose first character is not a token character;
acceptance is exactly that prefix condition, so a credential made wholly
of token characters is in particular accepted, but later characters are
never constrained. -/
theorem auth_token_prefix_rule (s : String) :
    ((check_auth_token s).isOk = true ↔
      ∃ c cs, s.data = c :: cs ∧ isTokenChar c = true) ∧
    (specTokenPattern s = true → (check_auth_token s).isOk = true) := by
  constructor
  · rw [check_auth_token_isOk]
    unfold reMatchToken
    cases hd : s.data with
    | nil => simp
    | cons c cs =>
      simp only []
      constructor
      · intro h
        exact ⟨c, cs, rfl, h⟩
      · rintro ⟨c2, cs2, heq, h⟩
        injection heq with h1 h2
        subst h1
        exact h
  · intro hs
    rw [check_auth_token_isOk]
    unfold specTokenPattern at hs
    unfold reMatchToken
    cases hd : s.data with
    | nil => rw [hd] at hs; simp at hs
    | cons c cs =>
      rw [hd] at hs
      simp only [List.all_cons, Bool.and_eq_true] at hs
      exact hs.2.1

/-- C8 witness: a wholly token-charactered credential is accepted. -/
theorem auth_token_prefix_rule_witness :
    specTokenPattern "abc123" = true ∧ (check_auth_token "abc123").isOk = true :=
  ⟨by decide, (auth_token_prefix_rule "abc123").2 (by decide)⟩

/-- C7 counterexample: a success response whose id field holds a string
rather than an integer makes owner_id return that string unchecked, with
no error of any kind, contradicting the claim that a non-numeric id field
raises NetworkError. -/
theorem owner_id_non_numeric_accepted :
    owner_id 200 (some (JsonVal.str "not-a-number")) =
      Except.ok (JsonVal.str "not-a-number") := by
  rfl

/-- C7 amended: owner_id raises HttpError (the NetworkError kind) exactly
for response statuses in [400, 600); on other statuses an absent id field
raises a plain KeyError, not a NetworkError, and a present id value of any
shape, numeric or not, is returned without any check. -/
theorem owner_id_error_rule (status : Nat) (idv : Option JsonVal) :
    ((∃ st, owner_id status idv = Except.error (OwnerLookupError.httpError st)) ↔
      (400 ≤ status ∧ status < 600)) ∧
    ((owner_id status idv = Except.error OwnerLookupError.keyError) ↔
      (¬(400 ≤ status ∧ status < 600) ∧ idv = none)) ∧
    (∀ v, owner_id status idv = Except.ok v ↔
      (¬(400 ≤ status ∧ status < 600) ∧ idv = some v)) := by
  unfold owner_id
  split
  next h =>
    refine ⟨?_, ?_, ?_⟩
    · simp [h]
    · simp [h]
    · intro v; simp [h]
  next h =>
    cases idv with
    | none => refine ⟨?_, ?_, ?_⟩ <;> simp [h]
    | some v0 =>
      refine ⟨?_, ?_, ?_⟩
      · simp [h]
      · simp [h]
      · intro v; simp [h]

/-- C6: leave-record name parsing extracts the 8-digit token as the second
"-"-delimited segment and converts it to a calendar date; an unparseable
token raises ValueError, and one bad record makes the whole existing-leave
query fail rather than being skipped. -/
theorem leave_name_parsing_spec :
    parse_leave_name "LEAVE-20240115-abc" = Except.ok ⟨2024, 1, 15⟩ ∧
    parse_leave_name "LEAVE-badtoken-abc" = Except.error LeaveParseError.valueError ∧
    get_all_leaves ["LEAVE-20240101-aaa", "LEAVE-badtoken-abc", "LEAVE-20240102-bbb"] =
      Except.error LeaveParseError.valueError :=
  ⟨rfl, rfl, rfl⟩

/-- C1: a creation request answered with HTTP 403 does not produce a
FAILURE log line and does not let the loop continue; raise_for_status
inside decorate_http turns it into an HttpError that aborts the whole run
before the second candidate date is even announced. -/
theorem http_403_aborts_run :
    order_home_office [] (alwaysStatus 403) 0 1 [0, 1] =
      RunResult.mk [LogEntry.trying 0] [0] (some 403) ∧
    LogEntry.failure 403 ∉ (order_home_office [] (alwaysStatus 403) 0 1 [0, 1]).logs ∧
    LogEntry.trying 1 ∉ (order_home_office [] (alwaysStatus 403) 0 1 [0, 1]).logs := by
  exact ⟨by decide, by decide, by decide⟩

/-- C4 counterexample: on a run that validates and completes normally the
session close is executed twice, once inline after the loop and once in
the finally block, not exactly once; and when parameter validation fails
the close is executed zero times since p is still None. -/
theorem close_called_twice_on_success :
    closeCount (validateEvents okInput [] (alwaysStatus 200)) = 2 ∧
    closeCount (validateEvents (RawInput.mk "" [("Monday", 0, true)] 0 0) []
      (alwaysStatus 200)) = 0 := by
  exact ⟨by rfl, by rfl⟩

/-- C4 amended: the number of Params.close calls of a validate run is two
on normal completion, one when the reconciliation loop raises HttpError
mid-run, and zero when parameter validation fails, in which case no
session object exists at all. -/
theorem close_call_counts (r : RawInput) (leaves : List Int) (transport : Int → Nat) :
    closeCount (validateEvents r leaves transport) =
      (match mkParams r with
       | Except.error _ => 0
       | Except.ok p =>
         match (order_home_office leaves transport p.date_from p.date_to p.days).err with
         | none => 2
         | some _ => 1) := by
  unfold validateEvents closeCount
  cases hp : mkParams r with
  | error e => simp
  | ok p =>
    cases herr : (order_home_office leaves transport p.date_from p.date_to p.days).err with
    | none => simp [herr, List.filter_append, filter_closed_map_displayed]
    | some st => simp [herr, List.filter_append, filter_closed_map_displayed]

/-- C2: a candidate date already in the existing-leave set never gets a
creation request, on any run; and whenever the run reaches that date (its
trying line is in the log) the line immediately following it is the
"[x] Already taken" line. -/
theorem already_taken_short_circuit (leaves : List Int) (transport : Int → Nat)
    (f t : Int) (wdays : List Int) (d : Int) (hd : d ∈ leaves) :
    d ∉ (order_home_office leaves transport f t wdays).posts ∧
    (LogEntry.trying d ∈ (order_home_office leaves transport f t wdays).logs →
      ∃ pre r2, (order_home_office leaves transport f t wdays).logs =
        pre ++ LogEntry.trying d :: LogEntry.alreadyTaken :: r2) := by
  constructor
  · exact processDays_posts_disjoint leaves transport d hd _
  · intro hmem
    obtain ⟨pre, rest', hsplit⟩ := List.append_of_mem hmem
    obtain ⟨h1, _, _, _⟩ := processDays_group leaves transport d _ pre rest' hsplit
    obtain ⟨r2, hr2⟩ := h1 hd
    exact ⟨pre, r2, by rw [hsplit, hr2]⟩

/-- C2 witness: day 0 is in the existing-leave set, it is never POSTed and
its trying line is followed by the already-taken line. -/
theorem already_taken_short_circuit_witness :
    ((0 : Int) ∈ ([0] : List Int)) ∧
    ((0 : Int) ∉ (order_home_office [0] (alwaysStatus 200) 0 0 [0]).posts ∧
     (LogEntry.trying 0 ∈ (order_home_office [0] (alwaysStatus 200) 0 0 [0]).logs →
       ∃ pre r2, (order_home_office [0] (alwaysStatus 200) 0 0 [0]).logs =
         pre ++ LogEntry.trying 0 :: LogEntry.alreadyTaken :: r2)) :=
  ⟨by decide, already_taken_short_circuit [0] (alwaysStatus 200) 0 0 [0] 0 (by decide)⟩

/-- C10: for a candidate date not in the leave set whose creation request
is answered with a 2xx status other than 200 (201 through 299), the line
after its trying line is the FAILURE line carrying that status; and a
SUCCESS line right after a trying line forces that date's status to be
exactly 200. -/
theorem non_200_success_status_logs_failure (leaves : List Int)
    (transport : Int → Nat) (f t : Int) (wdays : List Int) (d : Int)
    (hd : d ∉ leaves) :
    ((201 ≤ transport d ∧ transport d ≤ 299) →
      LogEntry.trying d ∈ (order_home_office leaves transport f t wdays).logs →
      ∃ pre r2, (order_home_office leaves transport f t wdays).logs =
        pre ++ LogEntry.trying d :: LogEntry.failure (transport d) :: r2) ∧
    (∀ pre r2, (order_home_office leaves transport f t wdays).logs =
        pre ++ LogEntry.trying d :: LogEntry.success :: r2 →
      transport d = 200) := by
  constructor
  · rintro ⟨h1, h2⟩ hmem
    obtain ⟨pre, rest', hsplit⟩ := List.append_of_mem hmem
    obtain ⟨_, _, _, h4⟩ := processDays_group leaves transport d _ pre rest' hsplit
    obtain ⟨r2, hr2⟩ := h4 hd (by omega) (by omega)
    exact ⟨pre, r2, by rw [hsplit, hr2]⟩
  · intro pre r2 hsplit
    obtain ⟨_, hb, _, hdd⟩ :=
      processDays_group leaves transport d _ pre (LogEntry.success :: r2) hsplit
    by_cases hst : 400 ≤ transport d ∧ transport d < 600
    · have habort := hb hd hst
      simp at habort
    · by_cases h200 : transport d = 200
      · exact h200
      · obtain ⟨r3, hr3⟩ := hdd hd hst h200
        injection hr3 with hx _
        cases hx

/-- C10 witness: a 201 answer for day 0 yields a FAILURE line carrying
201 right after the trying line, not a SUCCESS line. -/
theorem non_200_success_status_logs_failure_witness :
    ((0 : Int) ∉ ([] : List Int)) ∧
    (((201 ≤ alwaysStatus 201 0 ∧ alwaysStatus 201 0 ≤ 299) →
       LogEntry.trying 0 ∈ (order_home_office [] (alwaysStatus 201) 0 0 [0]).logs →
       ∃ pre r2, (order_home_office [] (alwaysStatus 201) 0 0 [0]).logs =
         pre ++ LogEntry.trying 0 :: LogEntry.failure (alwaysStatus 201 0) :: r2) ∧
     (∀ pre r2, (order_home_office [] (alwaysStatus 201) 0 0 [0]).logs =
         pre ++ LogEntry.trying 0 :: LogEntry.success :: r2 →
       alwaysStatus 201 0 = 200)) :=
  ⟨by decide, non_200_success_status_logs_failure [] (alwaysStatus 201) 0 0 [0] 0 (by decide)⟩
